import Mathlib

/-!
Verification of the `@a_jackie_z/config` configuration factory
(`src/lib/config.ts`): a schema-aware coercion and validation pipeline
that maps environment-variable strings onto a typed, validated
configuration object.

The four source functions are embedded shallowly:
  * `unwrapSchema`    — recursively strips modifier wrappers from a field
                        schema descriptor,
  * `getPrimitiveKind`— classifies the unwrapped node as
                        number / boolean / string / other,
  * `coerceValue`     — best-effort coercion of a raw environment value,
  * `createConfig`    — builds the candidate object and submits it to the
                        schema validator.

Field schema descriptors are runtime zod nodes; the code inspects them
through `_def.typeName` and the wrapper's inner field, and defends
against malformed nodes (no `_def`, wrapper without its inner schema,
unknown type tags).  The inductive `FieldSchema` below mirrors exactly
the shapes this code distinguishes.  JavaScript runtime values flowing
through the pipeline are modelled by `JSValue`; JS numbers are modelled
as exact rationals plus the special values NaN and ±Infinity (every
concrete number occurring in the claims is exactly representable).
-/

namespace Config

/-- Decidable equality for `Except` outcomes, so that concrete runs of
the pipeline can be checked by evaluation. -/
instance {ε α : Type} [DecidableEq ε] [DecidableEq α] :
    DecidableEq (Except ε α) := fun a b =>
  match a, b with
  | .ok x, .ok y =>
    if h : x = y then .isTrue (by rw [h])
    else .isFalse (fun hh => h (Except.ok.inj hh))
  | .error e, .error f =>
    if h : e = f then .isTrue (by rw [h])
    else .isFalse (fun hh => h (Except.error.inj hh))
  | .ok _, .error _ => .isFalse (fun hh => Except.noConfusion hh)
  | .error _, .ok _ => .isFalse (fun hh => Except.noConfusion hh)

/-- A JavaScript number as the pipeline observes it: a finite value
(modelled exactly as a rational), NaN, or a signed infinity. -/
inductive JSNumber where
  | val (q : ℚ)
  | nan
  | posInf
  | negInf
  deriving DecidableEq, Repr

/-- A JavaScript runtime value that can flow through the coercion and
validation pipeline: a string, a number, or a boolean. -/
inductive JSValue where
  | str (s : String)
  | num (n : JSNumber)
  | boolean (b : Bool)
  deriving DecidableEq, Repr

/-- A constraint check attached to a `z.number()` node (the source's
examples use `.int()` and `.positive()`). -/
inductive NumCheck where
  | int
  | positive
  deriving DecidableEq, Repr

/-- A constraint check attached to a `z.string()` node (the spec's
scenario C uses `.min(1)`). -/
inductive StrCheck where
  | min (n : Nat)
  deriving DecidableEq, Repr

/-- A field schema descriptor as `unwrapSchema` / `getPrimitiveKind`
observe it at runtime.  `undef` models a falsy node (JS `undefined` or
`null`) — in a wrapper's inner slot it models the absent sub-structure
the code defends against (`innerType ? unwrapSchema(innerType) :
schema`); `noDef` models a truthy node without a `_def`; `unknownTag`
models a node whose `_def.typeName` is none of the recognized tags. -/
inductive FieldSchema where
  | undef
  | noDef
  | zNumber (checks : List NumCheck)
  | zBoolean
  | zString (checks : List StrCheck)
  | zOptional (innerType : FieldSchema)
  | zNullable (innerType : FieldSchema)
  | zDefault (innerType : FieldSchema) (defaultValue : JSValue)
  | zCatch (innerType : FieldSchema) (catchValue : JSValue)
  | zReadonly (innerType : FieldSchema)
  | zEffects (inner : FieldSchema)
  | zPipeline (inStage outStage : FieldSchema)
  | unknownTag (tag : String)
  deriving DecidableEq, Repr

/-- `unwrapSchema` (config.ts lines 4–35): strip optional / nullable /
default / catch / readonly / effects / pipeline wrappers to reach the
innermost node.  A falsy node, a node without `_def`, a wrapper whose
inner sub-structure is absent (falsy), and an unrecognized tag are all
returned unchanged. -/
def unwrapSchema : FieldSchema → FieldSchema
  | .zOptional .undef => .zOptional .undef
  | .zOptional innerType => unwrapSchema innerType
  | .zNullable .undef => .zNullable .undef
  | .zNullable innerType => unwrapSchema innerType
  | .zDefault .undef d => .zDefault .undef d
  | .zDefault innerType _ => unwrapSchema innerType
  | .zCatch .undef c => .zCatch .undef c
  | .zCatch innerType _ => unwrapSchema innerType
  | .zReadonly .undef => .zReadonly .undef
  | .zReadonly innerType => unwrapSchema innerType
  | .zEffects .undef => .zEffects .undef
  | .zEffects innerSchema => unwrapSchema innerSchema
  | .zPipeline i .undef => .zPipeline i .undef
  | .zPipeline _ out => unwrapSchema out
  | s => s

/-- The inner node `unwrapSchema` would recurse into at the top level,
or `none` when the code returns the current node unchanged (primitive,
unrecognized, falsy, or a wrapper whose inner sub-structure is
absent). -/
def unwrapStep : FieldSchema → Option FieldSchema
  | .zOptional .undef => none
  | .zOptional innerType => some innerType
  | .zNullable .undef => none
  | .zNullable innerType => some innerType
  | .zDefault .undef _ => none
  | .zDefault innerType _ => some innerType
  | .zCatch .undef _ => none
  | .zCatch innerType _ => some innerType
  | .zReadonly .undef => none
  | .zReadonly innerType => some innerType
  | .zEffects .undef => none
  | .zEffects innerSchema => some innerSchema
  | .zPipeline _ .undef => none
  | .zPipeline _ out => some out
  | _ => none

/-- The primitive kind `getPrimitiveKind` assigns to a field schema. -/
inductive PrimKind where
  | number
  | boolean
  | string
  | other
  deriving DecidableEq, Repr

/-- `getPrimitiveKind` (config.ts lines 37–50): unwrap, then classify
the resulting node; anything that is not a recognized number / boolean /
string primitive (including a node without `_def`) is `other`. -/
def getPrimitiveKind (schema : FieldSchema) : PrimKind :=
  match unwrapSchema schema with
  | .zNumber _ => .number
  | .zBoolean => .boolean
  | .zString _ => .string
  | _ => .other

/-! ## JavaScript string-to-number coercion

`coerceValue` delegates numeric parsing to `z.coerce.number()`, which
applies JavaScript's `Number()` conversion and then rejects NaN.  That
conversion is external to the repository; `jsStringToNumber` models it
from the spec ("a permissive numeric parse of the string, accepting
integer and decimal forms, consistent with standard numeric literal
parsing"): trim whitespace, the empty remainder gives 0, an optional
sign followed by `Infinity` or by a decimal literal (integer part,
optional fraction, optional exponent) gives the parsed value, anything
else gives NaN. -/

/-- Modelled from the spec: JavaScript `String.prototype.toLowerCase`
(external runtime semantics; it agrees with per-character lowercasing
on the ASCII range, which covers every literal the code compares
against). -/
def jsToLower (s : String) : String :=
  ⟨s.data.map Char.toLower⟩

/-- Modelled from the spec: JavaScript `String.prototype.trim`
(external runtime semantics): strip leading and trailing whitespace. -/
def jsTrim (s : String) : String :=
  ⟨(((s.data.dropWhile Char.isWhitespace).reverse).dropWhile
      Char.isWhitespace).reverse⟩

/-- Numeric value of a list of decimal digit characters. -/
def digitsVal (ds : List Char) : Nat :=
  ds.foldl (fun a c => a * 10 + (c.toNat - 48)) 0

/-- Parse the optional-exponent tail of a decimal literal and apply it
to the mantissa `q`; the tail must be empty or a full exponent part. -/
def applyExponent (q : ℚ) (cs : List Char) : Option ℚ :=
  match cs with
  | [] => some q
  | c :: rest =>
    if c = 'e' ∨ c = 'E' then
      let (sgn, ds) :=
        match rest with
        | '+' :: r => (true, r)
        | '-' :: r => (false, r)
        | r => (true, r)
      let (digs, rem) := ds.span Char.isDigit
      if digs.isEmpty ∨ ¬ rem.isEmpty then none
      else if sgn then some (mkRat (q.num * 10 ^ digitsVal digs) q.den)
      else some (mkRat q.num (q.den * 10 ^ digitsVal digs))
    else none

/-- Parse an unsigned decimal literal: digits, optional `.` fraction,
optional exponent; at least one mantissa digit is required. -/
def parseDecimal (cs : List Char) : Option ℚ :=
  let (ip, r1) := cs.span Char.isDigit
  match r1 with
  | '.' :: r2 =>
    let (fp, r3) := r2.span Char.isDigit
    if ip.isEmpty ∧ fp.isEmpty then none
    else
      applyExponent
        (mkRat (digitsVal ip * 10 ^ fp.length + digitsVal fp) (10 ^ fp.length)) r3
  | r =>
    if ip.isEmpty then none
    else applyExponent (mkRat (digitsVal ip) 1) r

/-- Modelled from the spec: JavaScript's `Number()` conversion of a
string, as used by `z.coerce.number()` (the zod library is external to
this repository).  Whitespace is trimmed; an empty remainder converts
to 0; otherwise an optional sign followed by `Infinity` or a decimal
literal converts to that value, and any other string converts to NaN. -/
def jsStringToNumber (s : String) : JSNumber :=
  let cs := (jsTrim s).data
  match cs with
  | [] => .val 0
  | '+' :: r =>
    if r = "Infinity".data then .posInf
    else match parseDecimal r with
      | some q => .val q
      | none => .nan
  | '-' :: r =>
    if r = "Infinity".data then .negInf
    else match parseDecimal r with
      | some q => .val (-q)
      | none => .nan
  | _ =>
    if cs = "Infinity".data then .posInf
    else match parseDecimal cs with
      | some q => .val q
      | none => .nan

/-- Modelled from the spec: JavaScript's `Number()` conversion of a
runtime value — a string via `jsStringToNumber`, a number unchanged,
a boolean as 1 or 0. -/
def jsToNumber : JSValue → JSNumber
  | .str s => jsStringToNumber s
  | .num n => n
  | .boolean b => .val (if b then 1 else 0)

/-- A JavaScript runtime exception (`coerceValue` calls
`value.toLowerCase()`, which throws a TypeError when the value is not a
string). -/
inductive JsError where
  | typeError (msg : String)
  deriving DecidableEq, Repr

/-- `coerceValue` (config.ts lines 51–71), over runtime values.  An
absent value stays absent.  Number kind: `z.coerce.number().safeParse`,
i.e. JavaScript `Number()` conversion, succeeds unless the result is
NaN; on success the parsed number is produced, on failure the value is
returned unchanged.  Boolean kind: the value is lowercased and trimmed
(a TypeError when it is not a string) and matched against the
recognized literals, any other string passing through unchanged.
String or other kind: the value passes through unchanged. -/
def coerceValue (schema : FieldSchema) (value : Option JSValue) :
    Except JsError (Option JSValue) :=
  match value with
  | none => .ok none
  | some v =>
    match getPrimitiveKind schema with
    | .number =>
      match jsToNumber v with
      | .nan => .ok (some v)
      | n => .ok (some (.num n))
    | .boolean =>
      match v with
      | .str s =>
        let lower := jsTrim (jsToLower s)
        if lower = "true" ∨ lower = "1" ∨ lower = "yes" then
          .ok (some (.boolean true))
        else if lower = "false" ∨ lower = "0" ∨ lower = "no" ∨ lower = "" then
          .ok (some (.boolean false))
        else
          .ok (some v)
      | _ => .error (.typeError "value.toLowerCase is not a function")
    | _ => .ok (some v)

/-! ## The external validator

`createConfig` ends with `schema.parse(initial)`, delegating all type
checking, default substitution and constraint enforcement to the zod
object schema.  That validator is external to the repository; it is
modelled here from the spec: a parse operation per field that applies
type checks, default substitution and constraint enforcement, and an
object-level parse that collects structured `(field path, message list)`
issues. -/

/-- Whether a JS number satisfies one numeric constraint check. -/
def numCheckPass : NumCheck → JSNumber → Bool
  | .int, .val q => q.den = 1
  | .int, _ => false
  | .positive, .val q => 0 < q
  | .positive, .posInf => true
  | .positive, _ => false

/-- Whether a string satisfies one string constraint check. -/
def strCheckPass : StrCheck → String → Bool
  | .min n, s => n ≤ s.length

/-- Modelled from the spec: the external validator's parse of a single
field schema against a present-or-absent candidate value: type checks,
default substitution for an absent value, optional fields letting an
absent value stay absent, constraint enforcement, and a message list on
failure.  `ok none` means the field is left absent in the output. -/
def parseField : FieldSchema → Option JSValue → Except (List String) (Option JSValue)
  | .zNumber checks, some (.num n) =>
    if n = .nan then .error ["Expected number, received nan"]
    else
      match checks.filter (fun c => ! numCheckPass c n) with
      | [] => .ok (some (.num n))
      | failed => .error (failed.map (fun c =>
          match c with
          | .int => "Expected integer, received float"
          | .positive => "Number must be greater than 0"))
  | .zNumber _, some _ => .error ["Expected number, received other"]
  | .zNumber _, none => .error ["Required"]
  | .zBoolean, some (.boolean b) => .ok (some (.boolean b))
  | .zBoolean, some _ => .error ["Expected boolean, received other"]
  | .zBoolean, none => .error ["Required"]
  | .zString checks, some (.str s) =>
    match checks.filter (fun c => ! strCheckPass c s) with
    | [] => .ok (some (.str s))
    | failed => .error (failed.map (fun c =>
        match c with
        | .min n => "String must contain at least " ++ toString n ++ " character(s)"))
  | .zString _, some _ => .error ["Expected string, received other"]
  | .zString _, none => .error ["Required"]
  | .zOptional .undef, _ => .error ["malformed schema"]
  | .zOptional innerType, value =>
    match value with
    | none => .ok none
    | some v => parseField innerType (some v)
  | .zNullable .undef, _ => .error ["malformed schema"]
  | .zNullable innerType, value => parseField innerType value
  | .zDefault .undef _, _ => .error ["malformed schema"]
  | .zDefault innerType defaultValue, value =>
    parseField innerType (some (value.getD defaultValue))
  | .zCatch .undef _, _ => .error ["malformed schema"]
  | .zCatch innerType catchValue, value =>
    match parseField innerType value with
    | .ok r => .ok r
    | .error _ => .ok (some catchValue)
  | .zReadonly .undef, _ => .error ["malformed schema"]
  | .zReadonly innerType, value => parseField innerType value
  | .zEffects .undef, _ => .error ["malformed schema"]
  | .zEffects inner, value => parseField inner value
  | .zPipeline .undef _, _ => .error ["malformed schema"]
  | .zPipeline inStage outStage, value =>
    match parseField inStage value with
    | .error e => .error e
    | .ok r => parseField outStage r
  | _, _ => .error ["malformed schema"]

/-- A structured validation issue: field path plus message list. -/
structure ZodIssue where
  path : List String
  messages : List String
  deriving DecidableEq, Repr

/-- A zod object schema: an ordered mapping from field name to field
schema (field names are unique by construction in zod). -/
structure ZodObject where
  shape : List (String × FieldSchema)
  deriving DecidableEq, Repr

/-- Property lookup on a JS-object-like association list. -/
def lookupList {α : Type} (l : List (String × α)) (k : String) : Option α :=
  match l with
  | [] => none
  | (k', v) :: rest => if k' = k then some v else lookupList rest k

/-- Modelled from the spec: the external validator's object-level parse.
Every declared field is parsed against the candidate's value for it;
all failures are collected as `(field path, message list)` issues; on
overall success the output holds each field's parsed value in
declaration order, fields whose parse result is absent being omitted. -/
def parseObject (shape : List (String × FieldSchema))
    (input : List (String × JSValue)) :
    Except (List ZodIssue) (List (String × JSValue)) :=
  match shape with
  | [] => .ok []
  | (key, fieldSchema) :: rest =>
    let head := parseField fieldSchema (lookupList input key)
    match head, parseObject rest input with
    | .ok (some v), .ok out => .ok ((key, v) :: out)
    | .ok none, .ok out => .ok out
    | .ok _, .error issues => .error issues
    | .error msgs, .ok _ => .error [⟨[key], msgs⟩]
    | .error msgs, .error issues => .error (⟨[key], msgs⟩ :: issues)

/-! ## The build engine -/

/-- The candidate-object loop of `createConfig` (config.ts lines
78–94): for each declared field, look up its environment-variable name
in the metadata mapping and skip the field when the name is absent or
falsy; read the raw value from the environment snapshot; coerce it; and
write the result under the field name unless it is `undefined`.  A
thrown JS exception propagates (none occurs for a string-valued
environment, as `createConfig`'s signature requires). -/
def buildInitial (shape : List (String × FieldSchema))
    (metadata : List (String × String)) (env : List (String × String)) :
    Except JsError (List (String × JSValue)) :=
  match shape with
  | [] => .ok []
  | (key, fieldSchema) :: rest =>
    match lookupList metadata key with
    | none => buildInitial rest metadata env
    | some envVarName =>
      if envVarName = "" then buildInitial rest metadata env
      else
        let rawValue := lookupList env envVarName
        match coerceValue fieldSchema (rawValue.map .str) with
        | .error e => .error e
        | .ok none => buildInitial rest metadata env
        | .ok (some coerced) =>
          match buildInitial rest metadata env with
          | .error e => .error e
          | .ok out => .ok ((key, coerced) :: out)

/-- The outcome of `createConfig`: a thrown JS runtime error, the
validator's structured failure, or the validated configuration. -/
inductive BuildError where
  | runtime (e : JsError)
  | validation (issues : List ZodIssue)
  deriving DecidableEq, Repr

/-- `createConfig` (config.ts lines 73–97): assemble the candidate
object from the schema's shape, the metadata mapping and the
environment snapshot, then submit it to the schema validator's parse
operation, whose outcome is returned verbatim. -/
def createConfig (schema : ZodObject) (metadata : List (String × String))
    (env : List (String × String)) :
    Except BuildError (List (String × JSValue)) :=
  match buildInitial schema.shape metadata env with
  | .error e => .error (.runtime e)
  | .ok initial =>
    match parseObject schema.shape initial with
    | .error issues => .error (.validation issues)
    | .ok out => .ok out

/-- A field schema that is required and carries no default: a bare
primitive declaration (no optional / default wrapper), for which the
validator reports a missing value instead of substituting one. -/
def requiredNoDefault : FieldSchema → Bool
  | .zNumber _ => true
  | .zBoolean => true
  | .zString _ => true
  | _ => false

/-- The example schema of the spec's end-to-end scenarios:
`{port: z.number().int().positive(), host: z.string().default("localhost"),
debug: z.boolean().default(false)}`. -/
def exampleSchema : ZodObject :=
  ⟨[("port", .zNumber [.int, .positive]),
    ("host", .zDefault (.zString []) (.str "localhost")),
    ("debug", .zDefault .zBoolean (.boolean false))]⟩

/-! ## Helper lemmas -/

theorem unwrapSchema_eq_of_step_none (s : FieldSchema) (h : unwrapStep s = none) :
    unwrapSchema s = s := by
  cases s with
  | zOptional innerType => cases innerType <;> first | rfl | exact Option.noConfusion h
  | zNullable innerType => cases innerType <;> first | rfl | exact Option.noConfusion h
  | zDefault innerType d => cases innerType <;> first | rfl | exact Option.noConfusion h
  | zCatch innerType c => cases innerType <;> first | rfl | exact Option.noConfusion h
  | zReadonly innerType => cases innerType <;> first | rfl | exact Option.noConfusion h
  | zEffects inner => cases inner <;> first | rfl | exact Option.noConfusion h
  | zPipeline i o => cases o <;> first | rfl | exact Option.noConfusion h
  | undef => rfl
  | noDef => rfl
  | zNumber checks => rfl
  | zBoolean => rfl
  | zString checks => rfl
  | unknownTag t => rfl

theorem unwrapStep_unwrapSchema (s : FieldSchema) :
    unwrapStep (unwrapSchema s) = none := by
  induction s with
  | zOptional innerType ih => cases innerType <;> first | rfl | exact ih
  | zNullable innerType ih => cases innerType <;> first | rfl | exact ih
  | zDefault innerType d ih => cases innerType <;> first | rfl | exact ih
  | zCatch innerType c ih => cases innerType <;> first | rfl | exact ih
  | zReadonly innerType ih => cases innerType <;> first | rfl | exact ih
  | zEffects inner ih => cases inner <;> first | rfl | exact ih
  | zPipeline i o ihi iho => cases o <;> first | rfl | exact iho
  | undef => rfl
  | noDef => rfl
  | zNumber checks => rfl
  | zBoolean => rfl
  | zString checks => rfl
  | unknownTag t => rfl

theorem jsStringToNumber_trim_empty (s : String) (hs : jsTrim s = "") :
    jsStringToNumber s = .val 0 := by
  unfold jsStringToNumber
  rw [hs]

theorem coerceValue_str_ok (schema : FieldSchema) (raw : Option String) :
    ∃ r, coerceValue schema (raw.map JSValue.str) = .ok r := by
  cases raw with
  | none => exact ⟨none, rfl⟩
  | some s =>
    simp only [Option.map, coerceValue]
    cases getPrimitiveKind schema with
    | number => cases jsToNumber (JSValue.str s) <;> exact ⟨_, rfl⟩
    | boolean =>
      dsimp only
      split_ifs <;> exact ⟨_, rfl⟩
    | string => exact ⟨_, rfl⟩
    | other => exact ⟨_, rfl⟩

theorem buildInitial_ok (shape : List (String × FieldSchema))
    (metadata env : List (String × String)) :
    ∃ c, buildInitial shape metadata env = .ok c := by
  induction shape with
  | nil => exact ⟨[], rfl⟩
  | cons head rest ih =>
    obtain ⟨key, fieldSchema⟩ := head
    obtain ⟨c, hc⟩ := ih
    simp only [buildInitial]
    split
    · exact ⟨c, hc⟩
    · rename_i envVarName hm
      split
      · exact ⟨c, hc⟩
      · obtain ⟨r, hr⟩ := coerceValue_str_ok fieldSchema (lookupList env envVarName)
        rw [hr]
        cases r with
        | none => exact ⟨c, hc⟩
        | some v =>
          rw [hc]
          exact ⟨(key, v) :: c, rfl⟩

theorem buildInitial_lookup_skip (shape : List (String × FieldSchema))
    (metadata env : List (String × String)) (key : String)
    (h : lookupList metadata key = none ∨ lookupList metadata key = some "") :
    ∀ c, buildInitial shape metadata env = .ok c → lookupList c key = none := by
  induction shape with
  | nil =>
    intro c hc
    injection hc with h1
    rw [← h1]
    rfl
  | cons head rest ih =>
    obtain ⟨k', fs'⟩ := head
    intro c hc
    simp only [buildInitial] at hc
    split at hc
    · exact ih c hc
    · rename_i n hm
      split at hc
      · exact ih c hc
      · rename_i he
        have hk' : k' ≠ key := by
          intro e
          subst e
          rcases h with h | h
          · rw [h] at hm
            exact Option.noConfusion hm
          · rw [h] at hm
            injection hm with e2
            exact he e2.symm
        obtain ⟨r, hr⟩ := coerceValue_str_ok fs' (lookupList env n)
        rw [hr] at hc
        cases r with
        | none => exact ih c hc
        | some v =>
          cases hb : buildInitial rest metadata env with
          | error e =>
            rw [hb] at hc
            exact Except.noConfusion hc
          | ok c' =>
            rw [hb] at hc
            injection hc with h1
            rw [← h1]
            simp only [lookupList, if_neg hk']
            exact ih c' hb

theorem lookupList_filter_self (metadata : List (String × String)) (key : String) :
    lookupList (metadata.filter (fun e => ! (e.1 == key))) key = none := by
  induction metadata with
  | nil => rfl
  | cons head rest ih =>
    obtain ⟨k', v⟩ := head
    rw [List.filter_cons]
    by_cases hk : k' = key
    · have hp : (! ((k', v).1 == key)) = false := by simp [hk]
      rw [hp, if_neg Bool.false_ne_true]
      exact ih
    · have hp : (! ((k', v).1 == key)) = true := by simp [hk]
      rw [hp, if_pos rfl]
      simp only [lookupList, if_neg hk]
      exact ih

theorem lookupList_filter_ne (metadata : List (String × String)) (key k : String)
    (hk : k ≠ key) :
    lookupList (metadata.filter (fun e => ! (e.1 == key))) k
      = lookupList metadata k := by
  induction metadata with
  | nil => rfl
  | cons head rest ih =>
    obtain ⟨k', v⟩ := head
    rw [List.filter_cons]
    by_cases h1 : k' = key
    · have hp : (! ((k', v).1 == key)) = false := by simp [h1]
      rw [hp, if_neg Bool.false_ne_true, ih]
      have h2 : k' ≠ k := fun e => hk (e ▸ h1)
      simp only [lookupList, if_neg h2]
    · have hp : (! ((k', v).1 == key)) = true := by simp [h1]
      rw [hp, if_pos rfl]
      simp only [lookupList]
      by_cases h2 : k' = k
      · rw [if_pos h2, if_pos h2]
      · rw [if_neg h2, if_neg h2]
        exact ih

theorem parseObject_lookup (shape : List (String × FieldSchema))
    (input : List (String × JSValue)) (key : String) (fs : FieldSchema)
    (v : JSValue) (hfs : lookupList shape key = some fs)
    (hv : parseField fs (lookupList input key) = .ok (some v)) :
    ∀ out, parseObject shape input = .ok out → lookupList out key = some v := by
  induction shape with
  | nil => exact absurd hfs (by simp [lookupList])
  | cons head rest ih =>
    obtain ⟨k', fs'⟩ := head
    intro out hout
    simp only [parseObject] at hout
    by_cases hk : k' = key
    · subst hk
      simp only [lookupList, if_pos rfl] at hfs
      injection hfs with hfs
      subst hfs
      rw [hv] at hout
      cases hr : parseObject rest input with
      | error issues =>
        rw [hr] at hout
        exact Except.noConfusion hout
      | ok out' =>
        rw [hr] at hout
        injection hout with h1
        rw [← h1]
        simp [lookupList]
    · simp only [lookupList, if_neg hk] at hfs
      cases hph : parseField fs' (lookupList input k') with
      | error msgs =>
        rw [hph] at hout
        cases hr : parseObject rest input with
        | error issues =>
          rw [hr] at hout
          exact Except.noConfusion hout
        | ok out' =>
          rw [hr] at hout
          exact Except.noConfusion hout
      | ok r =>
        rw [hph] at hout
        cases hr : parseObject rest input with
        | error issues =>
          rw [hr] at hout
          cases r <;> exact Except.noConfusion hout
        | ok out' =>
          rw [hr] at hout
          cases r with
          | none =>
            injection hout with h1
            rw [← h1]
            exact ih hfs out' hr
          | some w =>
            injection hout with h1
            rw [← h1]
            simp only [lookupList, if_neg hk]
            exact ih hfs out' hr

theorem parseObject_error (shape : List (String × FieldSchema))
    (input : List (String × JSValue)) (key : String) (fs : FieldSchema)
    (msgs : List String) (hfs : lookupList shape key = some fs)
    (hf : parseField fs (lookupList input key) = .error msgs) :
    ∃ issues, parseObject shape input = .error issues := by
  induction shape with
  | nil => exact absurd hfs (by simp [lookupList])
  | cons head rest ih =>
    obtain ⟨k', fs'⟩ := head
    by_cases hk : k' = key
    · subst hk
      simp only [lookupList, if_pos rfl] at hfs
      injection hfs with hfs
      subst hfs
      cases hr : parseObject rest input with
      | error issues =>
        exact ⟨⟨[k'], msgs⟩ :: issues, by simp only [parseObject, hf, hr]⟩
      | ok out' =>
        exact ⟨[⟨[k'], msgs⟩], by simp only [parseObject, hf, hr]⟩
    · simp only [lookupList, if_neg hk] at hfs
      obtain ⟨issues, hiss⟩ := ih hfs
      cases hph : parseField fs' (lookupList input k') with
      | error m =>
        exact ⟨⟨[k'], m⟩ :: issues, by simp only [parseObject, hph, hiss]⟩
      | ok r =>
        exact ⟨issues, by simp only [parseObject, hph, hiss]⟩

theorem parseField_required (fs : FieldSchema) (h : requiredNoDefault fs = true) :
    ∃ msgs, parseField fs none = .error msgs := by
  cases fs <;>
    first
      | exact ⟨["Required"], rfl⟩
      | exact absurd h (by simp [requiredNoDefault])

/-! ## Claims -/

/-- C5: the unwrap operation is total (it is a Lean function on every
`FieldSchema`, with no error outcome in its type) and, whenever the
descriptor offers no recognizable inner sub-structure to recurse into —
a falsy node, a node without `_def`, a wrapper whose inner slot is
absent, or an unrecognized tag — it returns the current node itself
rather than failing. -/
theorem c5_unwrap_total_on_malformed (s : FieldSchema) (h : unwrapStep s = none) :
    unwrapSchema s = s :=
  unwrapSchema_eq_of_step_none s h

theorem c5_unwrap_total_on_malformed_witness :
    unwrapStep (FieldSchema.zOptional .undef) = none ∧
    unwrapSchema (FieldSchema.zOptional .undef) = .zOptional .undef :=
  ⟨rfl, c5_unwrap_total_on_malformed (.zOptional .undef) rfl⟩

/-- C6: unwrapping terminates (every `FieldSchema` value is a finite,
acyclic tree, and `unwrapSchema` is total on it; after unwrapping no
further unwrap step remains) and is idempotent:
`unwrapSchema (unwrapSchema s) = unwrapSchema s`. -/
theorem c6_unwrap_idempotent (s : FieldSchema) :
    unwrapSchema (unwrapSchema s) = unwrapSchema s ∧
    unwrapStep (unwrapSchema s) = none :=
  ⟨unwrapSchema_eq_of_step_none _ (unwrapStep_unwrapSchema s),
   unwrapStep_unwrapSchema s⟩

/-- C2: for every boolean-kind field and present raw string, after
lowercasing and trimming, `"true"`, `"1"`, `"yes"` coerce to the
boolean `true`; `"false"`, `"0"`, `"no"` and the empty string coerce to
the boolean `false`; every other string is returned unchanged. -/
theorem c2_boolean_coercion (schema : FieldSchema) (s : String)
    (hk : getPrimitiveKind schema = .boolean) :
    ((jsTrim (jsToLower s)) = "true" ∨ (jsTrim (jsToLower s)) = "1" ∨ (jsTrim (jsToLower s)) = "yes" →
      coerceValue schema (some (.str s)) = .ok (some (.boolean true))) ∧
    (((jsTrim (jsToLower s)) = "false" ∨ (jsTrim (jsToLower s)) = "0" ∨ (jsTrim (jsToLower s)) = "no" ∨
        (jsTrim (jsToLower s)) = "") →
      coerceValue schema (some (.str s)) = .ok (some (.boolean false))) ∧
    (¬ ((jsTrim (jsToLower s)) = "true" ∨ (jsTrim (jsToLower s)) = "1" ∨ (jsTrim (jsToLower s)) = "yes") →
      ¬ ((jsTrim (jsToLower s)) = "false" ∨ (jsTrim (jsToLower s)) = "0" ∨ (jsTrim (jsToLower s)) = "no" ∨
        (jsTrim (jsToLower s)) = "") →
      coerceValue schema (some (.str s)) = .ok (some (.str s))) := by
  simp only [coerceValue, hk]
  refine ⟨fun h1 => ?_, fun h2 => ?_, fun h1 h2 => ?_⟩
  · rw [if_pos h1]
  · rw [if_neg ?_, if_pos h2]
    intro h1
    rcases h1 with h | h | h <;> rw [h] at h2 <;> revert h2 <;> decide
  · rw [if_neg h1, if_neg h2]

theorem c2_boolean_coercion_witness :
    coerceValue .zBoolean (some (.str " TRUE ")) = .ok (some (.boolean true)) ∧
    coerceValue .zBoolean (some (.str "No")) = .ok (some (.boolean false)) ∧
    coerceValue .zBoolean (some (.str "maybe")) = .ok (some (.str "maybe")) :=
  ⟨(c2_boolean_coercion .zBoolean " TRUE " (by decide)).1 (by decide),
   (c2_boolean_coercion .zBoolean "No" (by decide)).2.1 (by decide),
   (c2_boolean_coercion .zBoolean "maybe" (by decide)).2.2 (by decide) (by decide)⟩

/-- C3: for every number-kind field and present raw string, a string
whose JavaScript numeric parse succeeds coerces to the parsed number,
and a string whose parse fails (NaN) is returned unchanged as a
string — the value is never dropped or replaced. -/
theorem c3_number_coercion (schema : FieldSchema) (s : String)
    (hk : getPrimitiveKind schema = .number) :
    (∀ q : ℚ, jsStringToNumber s = .val q →
      coerceValue schema (some (.str s)) = .ok (some (.num (.val q)))) ∧
    (jsStringToNumber s = .nan →
      coerceValue schema (some (.str s)) = .ok (some (.str s))) := by
  constructor
  · intro q hq
    simp only [coerceValue, hk, jsToNumber, hq]
  · intro hq
    simp only [coerceValue, hk, jsToNumber, hq]

theorem c3_number_coercion_witness :
    coerceValue (.zNumber [.int, .positive]) (some (.str "3000"))
      = .ok (some (.num (.val 3000))) ∧
    coerceValue (.zNumber []) (some (.str "3.14"))
      = .ok (some (.num (.val (mkRat 157 50)))) ∧
    coerceValue (.zNumber []) (some (.str "abc")) = .ok (some (.str "abc")) :=
  ⟨(c3_number_coercion (.zNumber [.int, .positive]) "3000" (by decide)).1 3000 (by decide),
   (c3_number_coercion (.zNumber []) "3.14" (by decide)).1 (mkRat 157 50) (by decide),
   (c3_number_coercion (.zNumber []) "abc" (by decide)).2 (by decide)⟩

/-- C9: for every number-kind field, a present raw string that is empty
or whitespace-only coerces to the number 0 (JavaScript `Number`
semantics), not to a parse failure. -/
theorem c9_whitespace_to_zero (schema : FieldSchema) (s : String)
    (hk : getPrimitiveKind schema = .number) (hs : jsTrim s = "") :
    coerceValue schema (some (.str s)) = .ok (some (.num (.val 0))) := by
  simp only [coerceValue, hk, jsToNumber, jsStringToNumber_trim_empty s hs]

theorem c9_whitespace_to_zero_witness :
    coerceValue (.zNumber []) (some (.str "   ")) = .ok (some (.num (.val 0))) :=
  c9_whitespace_to_zero (.zNumber []) "   " (by decide) (by decide)

/-- C1: end-to-end scenario A — for the example schema, the full
mapping and the environment `{APP_PORT: "3000", APP_HOST:
"example.com", DEBUG: "true"}`, `createConfig` returns exactly
`{port: 3000 (number), host: "example.com", debug: true (boolean)}`. -/
theorem c1_end_to_end_scenario_a :
    createConfig exampleSchema
        [("port", "APP_PORT"), ("host", "APP_HOST"), ("debug", "DEBUG")]
        [("APP_PORT", "3000"), ("APP_HOST", "example.com"), ("DEBUG", "true")]
      = .ok [("port", .num (.val 3000)), ("host", .str "example.com"),
             ("debug", .boolean true)] := by
  decide

/-- C4: a declared field with no mapping entry gets no candidate entry;
when the field carries a default whose value the field schema validates
to itself, a successful build yields exactly that default for it; when
the field is a bare required primitive without a default, the build
fails with a validation error. -/
theorem c4_unmapped_field (schema : ZodObject) (metadata env : List (String × String))
    (key : String) (fs : FieldSchema)
    (hfs : lookupList schema.shape key = some fs)
    (hnomap : lookupList metadata key = none) :
    (∀ c, buildInitial schema.shape metadata env = .ok c → lookupList c key = none) ∧
    (∀ innerType d, fs = .zDefault innerType d →
      parseField (.zDefault innerType d) none = .ok (some d) →
      ∀ out, createConfig schema metadata env = .ok out →
        lookupList out key = some d) ∧
    (requiredNoDefault fs = true →
      ∃ issues, createConfig schema metadata env = .error (.validation issues)) := by
  refine ⟨buildInitial_lookup_skip _ _ _ _ (Or.inl hnomap), ?_, ?_⟩
  · intro innerType d hfd hdef out hout
    subst hfd
    simp only [createConfig] at hout
    split at hout
    · exact Except.noConfusion hout
    · rename_i c hb
      split at hout
      · exact Except.noConfusion hout
      · rename_i out' hp
        injection hout with h1
        rw [← h1]
        have hnone : lookupList c key = none :=
          buildInitial_lookup_skip _ _ _ _ (Or.inl hnomap) c hb
        exact parseObject_lookup schema.shape c key _ d hfs
          (by rw [hnone]; exact hdef) out' hp
  · intro hreq
    obtain ⟨c, hb⟩ := buildInitial_ok schema.shape metadata env
    have hnone : lookupList c key = none :=
      buildInitial_lookup_skip _ _ _ _ (Or.inl hnomap) c hb
    obtain ⟨msgs, hmsgs⟩ := parseField_required fs hreq
    obtain ⟨issues, hiss⟩ :=
      parseObject_error schema.shape c key fs msgs hfs (by rw [hnone]; exact hmsgs)
    exact ⟨issues, by simp only [createConfig, hb, hiss]⟩

theorem c4_unmapped_field_witness :
    lookupList [("port", JSValue.num (.val 8080)), ("host", JSValue.str "localhost"),
        ("debug", JSValue.boolean false)] "host" = some (.str "localhost") :=
  (c4_unmapped_field exampleSchema [("port", "APP_PORT")] [("APP_PORT", "8080")]
      "host" (.zDefault (.zString []) (.str "localhost")) (by decide) (by decide)).2.1
    (.zString []) (.str "localhost") rfl (by decide) _ (by decide)

/-- C7: `createConfig` propagates the validator's outcome verbatim —
its result is the validator's result on the candidate object: a success
returns exactly the validator's typed, default-filled object, and a
validation failure surfaces exactly the validator's structured issue
list (field path plus messages), neither wrapped nor reinterpreted. -/
theorem c7_validator_verbatim (schema : ZodObject)
    (metadata env : List (String × String))
    (initial : List (String × JSValue))
    (h : buildInitial schema.shape metadata env = .ok initial) :
    (∀ out, createConfig schema metadata env = .ok out ↔
      parseObject schema.shape initial = .ok out) ∧
    (∀ issues, createConfig schema metadata env = .error (.validation issues) ↔
      parseObject schema.shape initial = .error issues) := by
  constructor <;> intro x <;> simp only [createConfig, h] <;>
    cases hp : parseObject schema.shape initial <;> simp [hp]

theorem c7_validator_verbatim_witness :
    createConfig exampleSchema [("port", "APP_PORT")] []
      = .error (.validation [⟨["port"], ["Required"]⟩]) :=
  ((c7_validator_verbatim exampleSchema [("port", "APP_PORT")] [] []
      (by decide)).2 [⟨["port"], ["Required"]⟩]).mpr (by decide)

/-- C8 counterexample: the round-trip claim fails as stated — for a
boolean-kind field, a value that is already a native boolean does not
pass through coercion unchanged; the code calls `toLowerCase` on it and
a TypeError is raised. -/
theorem c8_roundtrip_counterexample :
    getPrimitiveKind FieldSchema.zBoolean = .boolean ∧
    coerceValue .zBoolean (some (.boolean true))
      = .error (.typeError "value.toLowerCase is not a function") ∧
    coerceValue .zBoolean (some (.boolean true)) ≠ .ok (some (.boolean true)) := by
  decide

/-- C8 (amended): coercion leaves a native number unaltered for a
number-kind field and leaves every value unaltered for string-kind and
other-kind fields, and validating a value of the correct native type
whose constraint checks pass returns it unaltered; but for a
boolean-kind field a non-string value (native number or boolean) raises
a TypeError in coercion instead of passing through. -/
theorem c8_roundtrip_amended (schema : FieldSchema) :
    (getPrimitiveKind schema = .number →
      ∀ n : JSNumber, coerceValue schema (some (.num n)) = .ok (some (.num n))) ∧
    (getPrimitiveKind schema = .string →
      ∀ v : JSValue, coerceValue schema (some v) = .ok (some v)) ∧
    (getPrimitiveKind schema = .other →
      ∀ v : JSValue, coerceValue schema (some v) = .ok (some v)) ∧
    (getPrimitiveKind schema = .boolean →
      (∀ n : JSNumber, coerceValue schema (some (.num n))
        = .error (.typeError "value.toLowerCase is not a function")) ∧
      (∀ b : Bool, coerceValue schema (some (.boolean b))
        = .error (.typeError "value.toLowerCase is not a function"))) ∧
    (∀ checks : List NumCheck, ∀ n : JSNumber, n ≠ .nan →
      checks.all (fun c => numCheckPass c n) = true →
      parseField (.zNumber checks) (some (.num n)) = .ok (some (.num n))) ∧
    (∀ checks : List StrCheck, ∀ s : String,
      checks.all (fun c => strCheckPass c s) = true →
      parseField (.zString checks) (some (.str s)) = .ok (some (.str s))) ∧
    (∀ b : Bool, parseField .zBoolean (some (.boolean b)) = .ok (some (.boolean b))) := by
  refine ⟨?_, ?_, ?_, ?_, ?_, ?_, fun b => rfl⟩
  · intro hk n
    simp only [coerceValue, hk, jsToNumber]
    cases n <;> rfl
  · intro hk v
    simp only [coerceValue, hk]
  · intro hk v
    simp only [coerceValue, hk]
  · intro hk
    exact ⟨fun n => by simp only [coerceValue, hk], fun b => by simp only [coerceValue, hk]⟩
  · intro checks n hn hall
    have hnil : checks.filter (fun c => ! numCheckPass c n) = [] := by
      rw [List.filter_eq_nil_iff]
      intro a ha
      simp [List.all_eq_true.mp hall a ha]
    simp only [parseField, if_neg hn, hnil]
  · intro checks s hall
    have hnil : checks.filter (fun c => ! strCheckPass c s) = [] := by
      rw [List.filter_eq_nil_iff]
      intro a ha
      simp [List.all_eq_true.mp hall a ha]
    simp only [parseField, hnil]

theorem c8_roundtrip_amended_witness :
    coerceValue (.zNumber [.int]) (some (.num (.val 5))) = .ok (some (.num (.val 5))) ∧
    coerceValue (.zString []) (some (.num (.val 5))) = .ok (some (.num (.val 5))) ∧
    coerceValue .zBoolean (some (.num (.val 5)))
      = .error (.typeError "value.toLowerCase is not a function") ∧
    parseField (.zNumber [.int, .positive]) (some (.num (.val 5)))
      = .ok (some (.num (.val 5))) :=
  ⟨(c8_roundtrip_amended (.zNumber [.int])).1 (by decide) (.val 5),
   (c8_roundtrip_amended (.zString [])).2.1 (by decide) (.num (.val 5)),
   ((c8_roundtrip_amended .zBoolean).2.2.2.1 (by decide)).1 (.val 5),
   (c8_roundtrip_amended .zBoolean).2.2.2.2.1 [.int, .positive] (.val 5)
     (by decide) (by decide)⟩

/-- C10: a field whose mapping entry is present but names the falsy
environment variable `""` is skipped exactly as if it had no mapping
entry: the candidate object is the one built with that entry removed
(so the environment is never consulted for it), and no candidate entry
is written under the field. -/
theorem c10_falsy_mapping_skipped (shape : List (String × FieldSchema))
    (metadata env : List (String × String)) (key : String)
    (h : lookupList metadata key = some "") :
    buildInitial shape metadata env
      = buildInitial shape (metadata.filter (fun e => ! (e.1 == key))) env ∧
    (∀ c, buildInitial shape metadata env = .ok c → lookupList c key = none) := by
  refine ⟨?_, buildInitial_lookup_skip _ _ _ _ (Or.inr h)⟩
  induction shape with
  | nil => rfl
  | cons head rest ih =>
    obtain ⟨k', fs'⟩ := head
    simp only [buildInitial]
    by_cases hk : k' = key
    · subst hk
      rw [h, lookupList_filter_self]
      exact ih
    · rw [lookupList_filter_ne metadata key k' hk]
      simp only [ih]

theorem c10_falsy_mapping_skipped_witness :
    buildInitial exampleSchema.shape [("port", "")] [("", "5")]
      = buildInitial exampleSchema.shape
          (List.filter (fun e => ! (e.1 == "port")) [("port", "")]) [("", "5")] :=
  (c10_falsy_mapping_skipped exampleSchema.shape [("port", "")] [("", "5")] "port"
      (by decide)).1

end Config
